import Mathlib

/-!
Shallow embedding of the dirwatch watch-coordination engine.

The repository contains two incarnations of the same engine:
an older one (set-valued registry, hard-coded `.git` filter,
`prepAgent`/`initTree` crash-recovery resubmission, free function `dirTree`)
and a newer one (options, glob exclusion via `excludePath`, per-path
recursive flag, method `dirTree` that excludes the query root).
Both are embedded below.  External collaborators (the OS stat call,
`filepath.Abs`, `filepath.Match`, the fsnotify registration primitive and
the on-disk directory tree) are modelled as an explicit environment
record `Env`; the handlers are pure functions from environment, registry
state and input message to a result record that carries the new registry
plus the externally visible effects (primitive registration attempts,
spawned tree enumerations, callback dispatches, log emissions).
-/

namespace Dirwatch

/-- Result of an `os.Stat` call as the handlers distinguish it:
success (carrying whether the path is a directory), a not-found error
(`os.IsNotExist`), or any other error. -/
inductive StatRes where
  | ok (isDir : Bool)
  | notFound
  | otherErr
deriving DecidableEq, Repr

/-- A node of the external file-system tree: a plain file, or a directory
with a finite list of named children.  This models the portion of the disk
that `filepath.Walk` can traverse. -/
inductive FsNode where
  | file : FsNode
  | dir : List (String × FsNode) → FsNode
deriving Repr

/-- Tags for the log emissions of the handlers, so that "the error is
logged" claims can be stated without modelling message strings. -/
inductive LogTag where
  | absErr
  | statErr
  | matchErr
  | regErr
deriving DecidableEq, Repr

/-- The environment: every external capability the engine consumes.
`abs` is `filepath.Abs` (`none` = error), `stat` is `os.Stat`,
`matchGlob` is `filepath.Match` (pattern, name; `Except.error` =
`ErrBadPattern`), `registerOk` tells whether the fsnotify primitive
accepts a registration, and `tree` is the directory tree visible at a
root path (`none` = stat failure). -/
structure Env where
  abs : String → Option String
  stat : String → StatRes
  matchGlob : String → String → Except Unit Bool
  registerOk : String → Bool
  tree : String → Option FsNode

/-- Registry of the newer engine: Go's `map[string]bool`
(absolute path ↦ recursive flag), as an association list. -/
abbrev Registry := List (String × Bool)

/-- Map lookup `m[k]`. -/
def rlookup (m : Registry) (k : String) : Option Bool :=
  (m.find? (fun e => e.1 == k)).map (fun e => e.2)

/-- Map deletion `delete(m, k)`. -/
def rerase (m : Registry) (k : String) : Registry :=
  m.filter (fun e => !(e.1 == k))

/-- Map update `m[k] = v`. -/
def rinsert (m : Registry) (k : String) (v : Bool) : Registry :=
  (k, v) :: rerase m k

/-- Number of entries stored under key `k`. -/
def countKey (m : Registry) (k : String) : Nat :=
  (m.filter (fun e => e.1 == k)).length

/-- A single file-system notification (`fsnotify.Event`): a path and an
operation bitmask. -/
structure Event where
  name : String
  op : Nat
deriving DecidableEq, Repr

/-- The payload of the newer engine's add channel: a path and an optional
recursive override (`recursive *bool`). -/
structure Fspath where
  path : String
  recursive : Option Bool
deriving DecidableEq, Repr

/-- `excludePath` of the newer engine: scan the configured patterns in
order; a `filepath.Match` error is logged and the pattern skipped
(`continue`); the first pattern that matches yields `true`; otherwise
`false`.  The second component collects the log emissions. -/
def excludePath (env : Env) (exclude : List String) (p : String) :
    Bool × List LogTag :=
  match exclude with
  | [] => (false, [])
  | ptrn :: rest =>
    match env.matchGlob ptrn p with
    | .error _ =>
      let r := excludePath env rest p
      (r.1, .matchErr :: r.2)
    | .ok true => (true, [])
    | .ok false => excludePath env rest p

/-- `isDir`: stat the path; on any error the returned flag is `false`. -/
def isDirB (env : Env) (p : String) : Bool :=
  match env.stat p with
  | .ok d => d
  | _ => false

/-- Result of one `onAdd` invocation of the newer engine: the registry
afterwards, the path passed to the primitive's register call (if any),
the root of the spawned recursive tree enumeration (if any), and the log
emissions. -/
structure AddRes where
  paths : Registry
  registerCall : Option String
  spawned : Option String
  logs : List LogTag
deriving DecidableEq, Repr

/-- `onAdd` of the newer engine, translated clause by clause:
empty path → ignore; `filepath.Abs` error → log, return; stat not-found →
drop any stale registry entry, return; other stat error → log, return;
already registered → return; excluded → return; then attempt registration
with the primitive (failure is logged, execution continues), record the
path with its recursive flag, and if the flag is set and the path is a
directory, spawn the subtree enumeration. -/
def onAdd (env : Env) (exclude : List String) (paths : Registry)
    (fsp : Fspath) : AddRes :=
  if fsp.path = "" then ⟨paths, none, none, []⟩ else
  match env.abs fsp.path with
  | none => ⟨paths, none, none, [.absErr]⟩
  | some p =>
    match env.stat p with
    | .notFound => ⟨rerase paths p, none, none, []⟩
    | .otherErr => ⟨paths, none, none, [.statErr]⟩
    | .ok _ =>
      if (rlookup paths p).isSome then ⟨paths, none, none, []⟩ else
      let ex := excludePath env exclude p
      if ex.1 then ⟨paths, none, none, ex.2⟩ else
      let regLogs : List LogTag :=
        if env.registerOk p then [] else [.regErr]
      let recursive :=
        match fsp.recursive with
        | some b => b
        | none => ((rlookup paths p).getD false)
      let spawned :=
        if recursive && isDirB env p then some p else none
      ⟨rinsert paths p recursive, some p, spawned, ex.2 ++ regLogs⟩

/-- Result of one `onEvent` invocation of the newer engine: the registry
afterwards, whether the caller callback was dispatched, the path
re-submitted to the add channel (if any), and the log emissions. -/
structure EvRes where
  paths : Registry
  callbackDispatched : Bool
  readd : Option String
  logs : List LogTag
deriving DecidableEq, Repr

/-- `onEvent` of the newer engine: drop excluded events before the
callback; otherwise dispatch the callback, then resolve the event path:
not-found → remove the registry entry; other stat error → log; a
directory → re-submit the path as an Add command. -/
def onEvent (env : Env) (exclude : List String) (paths : Registry)
    (ev : Event) : EvRes :=
  let ex := excludePath env exclude ev.name
  if ex.1 then ⟨paths, false, none, ex.2⟩ else
  match env.stat ev.name with
  | .notFound => ⟨rerase paths ev.name, true, none, ex.2⟩
  | .otherErr => ⟨paths, true, none, ex.2 ++ [.statErr]⟩
  | .ok isd =>
    if !isd then ⟨paths, true, none, ex.2⟩
    else ⟨paths, true, some ev.name, ex.2⟩

/-- Result of one `onAdd` invocation of the older engine, whose registry
is the plain path set `map[string]struct{}`. -/
structure AddResV1 where
  paths : List String
  registerCall : Option String
  logs : List LogTag
deriving DecidableEq, Repr

/-- Split a character sequence on the path separator, as
`strings.Split(d, sep)` does (adjacent separators produce empty
segments, a leading separator produces a leading empty segment). -/
def splitSegs : List Char → List (List Char)
  | [] => [[]]
  | c :: rest =>
    match splitSegs rest with
    | [] => [[]]
    | s :: ss => if c = '/' then [] :: s :: ss else (c :: s) :: ss

/-- Segment test of the older engine's hard-coded filter: split the path
on the separator and compare each lower-cased segment with `.git`. -/
def hasGitSeg (p : String) : Bool :=
  (splitSegs p.data).any
    (fun s => s.map Char.toLower == ['.', 'g', 'i', 't'])

/-- `onAdd` of the older engine: empty path → ignore; `filepath.Abs`
error → log, return; stat not-found → drop the registry entry, return;
other stat error → log, return; already registered → return; any path
segment equal (case-insensitively) to `.git` → return; then attempt
registration (failure logged, execution continues) and record the path. -/
def onAddV1 (env : Env) (paths : List String) (d : String) : AddResV1 :=
  if d = "" then ⟨paths, none, []⟩ else
  match env.abs d with
  | none => ⟨paths, none, [.absErr]⟩
  | some p =>
    match env.stat p with
    | .notFound => ⟨paths.filter (fun q => !(q == p)), none, []⟩
    | .otherErr => ⟨paths, none, [.statErr]⟩
    | .ok _ =>
      if p ∈ paths then ⟨paths, none, []⟩ else
      if hasGitSeg p then ⟨paths, none, []⟩ else
      ⟨p :: paths, some p, if env.registerOk p then [] else [.regErr]⟩

mutual

/-- One `filepath.Walk` visit restricted to the directory entries: a file
contributes nothing, a directory contributes its own path followed by the
walks of its children (child paths extend the parent path with a
separator and the child name). -/
def walkVisit (p : String) : FsNode → List String
  | .file => []
  | .dir cs => p :: walkChildren p cs

/-- Walks of a directory's children, in list order. -/
def walkChildren (p : String) : List (String × FsNode) → List String
  | [] => []
  | (nm, c) :: rest => walkVisit (p ++ "/" ++ nm) c ++ walkChildren p rest

end

/-- Specification-level reachability: `ReachDir p n q` holds when `q` is
the path of a directory reachable from the node `n` rooted at path `p`
(the root itself when it is a directory, or any directory inside one of
its children). -/
inductive ReachDir : String → FsNode → String → Prop where
  | here (p : String) (cs : List (String × FsNode)) : ReachDir p (.dir cs) p
  | child (p : String) (cs : List (String × FsNode)) (nm : String)
      (c : FsNode) (q : String) (hm : (nm, c) ∈ cs)
      (hr : ReachDir (p ++ "/" ++ nm) c q) : ReachDir p (.dir cs) q

/-- `dirTree` of the older engine (free function, root included): stat
error → nothing; root not a directory → exactly the root; otherwise the
walk of the whole subtree, root first. -/
def dirTree (t : Option FsNode) (root : String) : List String :=
  match t with
  | none => []
  | some .file => [root]
  | some (.dir cs) => walkVisit root (.dir cs)

/-- `dirTree` of the newer engine (method, root excluded): walk the
subtree but skip every visited path whose cleaned form equals the cleaned
query root (paths are canonical in the model, so cleaning is identity). -/
def dirTreeExcl (t : Option FsNode) (root : String) : List String :=
  match t with
  | none => []
  | some n => (walkVisit root n).filter (fun q => !(q == root))

/-- `initTree` of the older engine, as the sequence of paths it hands to
the add channel: for every registry entry of the snapshot, resolve it
(`filepath.Abs` errors are logged and the entry skipped) and emit every
path its `dirTree` enumeration yields. -/
def initTree (env : Env) (current : List String) : List String :=
  (current.filterMap
    (fun k => (env.abs k).map (fun v => dirTree (env.tree v) v))).flatten

/-- `prepAgent` of the older engine: snapshot the registry and feed the
snapshot through `initTree`; the resulting paths are re-submitted as Add
commands at the start of the agent incarnation. -/
def prepAgent (env : Env) (paths : List String) : List String :=
  initTree env paths

/-- Option record of the newer engine's constructor; the callback and
logger types are abstract (`Option` models a nil-able Go function). -/
structure WOptions (N L : Type) where
  notify : Option N
  exclude : List String
  logger : Option L

/-- `Notify` option: sets the notify callback. -/
def NotifyOpt {N L : Type} (n : N) : WOptions N L → WOptions N L :=
  fun o => { o with notify := some n }

/-- `Exclude` option: sets the exclusion patterns. -/
def ExcludeOpt {N L : Type} (ex : List String) :
    WOptions N L → WOptions N L :=
  fun o => { o with exclude := ex }

/-- `Logger` option: sets the logger. -/
def LoggerOpt {N L : Type} (lg : L) : WOptions N L → WOptions N L :=
  fun o => { o with logger := some lg }

/-- The constructed watcher handle: callback, exclusion patterns, logger
and the (initially empty) registry. -/
structure WatcherS (N L : Type) where
  notify : N
  exclude : List String
  logger : L
  paths : Registry

/-- Application of the option functions, in order, to the zero options
record (`o := &options{}; for _, v := range opt { v(o) }`). -/
def foldOpts {N L : Type}
    (opts : List (WOptions N L → WOptions N L)) : WOptions N L :=
  opts.foldl (fun acc f => f acc) ⟨none, [], none⟩

/-- `New` of the newer engine: fold the option functions over the zero
options record; a `nil` notify callback panics (modelled as
`Except.error`), a `nil` logger is defaulted to `log.Println` (the
`defLogger` argument); otherwise the handle is built with an empty
registry and returned. -/
def NewW {N L : Type} (defLogger : L)
    (opts : List (WOptions N L → WOptions N L)) :
    Except Unit (WatcherS N L) :=
  let o := foldOpts opts
  match o.notify with
  | none => .error ()
  | some nf => .ok ⟨nf, o.exclude, o.logger.getD defLogger, []⟩

/-- A small directory tree used to exercise the definitions on concrete
inputs: a directory with one subdirectory `a` and one file `b.txt`. -/
def fsExample : FsNode := .dir [("a", .dir []), ("b.txt", .file)]

/-- A concrete environment used to exercise the definitions: identity
path resolution, `/gone` does not exist, `/file.txt` is the only
non-directory, the pattern `[` is malformed, every other pattern matches
exactly itself, and the primitive refuses to register `/refused`. -/
def envEx : Env where
  abs := fun s => some s
  stat := fun s =>
    if s = "/gone" then .notFound else .ok (!(s == "/file.txt"))
  matchGlob := fun ptrn p =>
    if ptrn = "[" then .error () else .ok (ptrn == p)
  registerOk := fun s => !(s == "/refused")
  tree := fun s => if s = "/root" then some fsExample else some .file

theorem rlookup_rinsert (m : Registry) (k : String) (v : Bool) :
    rlookup (rinsert m k v) k = some v := by
  unfold rlookup rinsert
  rw [List.find?_cons_of_pos _ (by simp)]
  rfl

theorem rlookup_rerase (m : Registry) (k : String) :
    rlookup (rerase m k) k = none := by
  unfold rlookup rerase
  rw [Option.map_eq_none']
  rw [List.find?_eq_none]
  intro x hx
  have hx2 := List.of_mem_filter hx
  simpa using hx2

theorem rerase_filter_empty (m : Registry) (k : String) :
    (rerase m k).filter (fun e => e.1 == k) = [] := by
  rw [List.filter_eq_nil_iff]
  intro a ha
  have := List.of_mem_filter ha
  simpa using this

theorem countKey_rinsert (m : Registry) (k : String) (v : Bool) :
    countKey (rinsert m k v) k = 1 := by
  unfold countKey rinsert
  rw [List.filter_cons_of_pos (by simp)]
  rw [rerase_filter_empty]
  rfl

theorem filter_ne_of_not_mem (paths : List String) (p : String)
    (h : p ∉ paths) : paths.filter (fun q => !(q == p)) = paths := by
  rw [List.filter_eq_self]
  intro a ha
  simp only [Bool.not_eq_true', beq_eq_false_iff_ne]
  intro hap
  exact h (hap ▸ ha)

mutual

theorem walkVisit_mem : ∀ (n : FsNode) (p q : String),
    (q ∈ walkVisit p n ↔ ReachDir p n q)
  | .file, p, q => by
      rw [walkVisit]
      exact iff_of_false (List.not_mem_nil q) (fun h => nomatch h)
  | .dir cs, p, q => by
      rw [walkVisit]
      constructor
      · intro h
        rcases List.mem_cons.mp h with h | h
        · subst h
          exact ReachDir.here q cs
        · obtain ⟨nm, c, hm, hr⟩ := (walkChildren_mem cs p q).mp h
          exact ReachDir.child p cs nm c q hm hr
      · intro h
        cases h with
        | here => exact List.mem_cons_self _ _
        | child _ _ nm c _ hm hr =>
          exact List.mem_cons_of_mem _
            ((walkChildren_mem cs p q).mpr ⟨nm, c, hm, hr⟩)

theorem walkChildren_mem : ∀ (cs : List (String × FsNode)) (p q : String),
    (q ∈ walkChildren p cs ↔
      ∃ nm c, (nm, c) ∈ cs ∧ ReachDir (p ++ "/" ++ nm) c q)
  | [], p, q => by simp [walkChildren]
  | (nm, c) :: rest, p, q => by
      rw [walkChildren, List.mem_append,
        walkVisit_mem c (p ++ "/" ++ nm) q, walkChildren_mem rest p q]
      constructor
      · rintro (h | ⟨nm2, c2, hm, hr⟩)
        · exact ⟨nm, c, List.mem_cons_self _ _, h⟩
        · exact ⟨nm2, c2, List.mem_cons_of_mem _ hm, hr⟩
      · rintro ⟨nm2, c2, hm, hr⟩
        rcases List.mem_cons.mp hm with h | h
        · cases h
          exact Or.inl hr
        · exact Or.inr ⟨nm2, c2, h, hr⟩

end

theorem excludePath_true_iff (env : Env) (p : String) :
    ∀ exclude : List String,
    ((excludePath env exclude p).1 = true ↔
      ∃ ptrn ∈ exclude, env.matchGlob ptrn p = Except.ok true)
  | [] => by simp [excludePath]
  | ptrn :: rest => by
      cases hm : env.matchGlob ptrn p with
      | error e =>
        simp only [excludePath, hm]
        rw [excludePath_true_iff env p rest]
        constructor
        · rintro ⟨q, hq, hqq⟩
          exact ⟨q, List.mem_cons_of_mem _ hq, hqq⟩
        · rintro ⟨q, hq, hqq⟩
          rcases List.mem_cons.mp hq with h | h
          · subst h
            rw [hm] at hqq
            cases hqq
          · exact ⟨q, h, hqq⟩
      | ok b =>
        cases b with
        | true =>
          simp only [excludePath, hm]
          exact iff_of_true trivial ⟨ptrn, List.mem_cons_self _ _, hm⟩
        | false =>
          simp only [excludePath, hm]
          rw [excludePath_true_iff env p rest]
          constructor
          · rintro ⟨q, hq, hqq⟩
            exact ⟨q, List.mem_cons_of_mem _ hq, hqq⟩
          · rintro ⟨q, hq, hqq⟩
            rcases List.mem_cons.mp hq with h | h
            · subst h
              rw [hm] at hqq
              cases hqq
            · exact ⟨q, h, hqq⟩

theorem excludePath_all_err (env : Env) (p : String) :
    ∀ exclude : List String,
    (∀ ptrn ∈ exclude, env.matchGlob ptrn p = Except.error ()) →
    excludePath env exclude p =
      (false, List.replicate exclude.length LogTag.matchErr)
  | [] => by
      intro _
      simp [excludePath]
  | ptrn :: rest => by
      intro h
      have hm := h ptrn (List.mem_cons_self _ _)
      have ih := excludePath_all_err env p rest
        (fun q hq => h q (List.mem_cons_of_mem _ hq))
      simp [excludePath, hm, ih, List.replicate_succ]

/-- C1: after an Add command for a path has been processed by the agent
(the path exists, was not yet registered and is not excluded), the
registry holds exactly one entry for it, and processing a second Add
command resolving to the same absolute path leaves the registry
unchanged and performs no registration with the primitive, spawns no
enumeration and emits no log; the same second-call no-op holds for the
older engine's handler. -/
theorem add_idempotent (env : Env) (exclude : List String)
    (paths : Registry) (fsp fsp2 : Fspath) (p : String) (isd : Bool)
    (h1 : fsp.path ≠ "") (h2 : env.abs fsp.path = some p)
    (h3 : env.stat p = .ok isd)
    (h4 : rlookup paths p = none)
    (h5 : (excludePath env exclude p).1 = false)
    (h6 : fsp2.path ≠ "") (h7 : env.abs fsp2.path = some p) :
    countKey (onAdd env exclude paths fsp).paths p = 1 ∧
    onAdd env exclude (onAdd env exclude paths fsp).paths fsp2 =
      ⟨(onAdd env exclude paths fsp).paths, none, none, []⟩ ∧
    (∀ (spaths : List String) (d : String), d ≠ "" →
      env.abs d = some p → p ∈ spaths →
      onAddV1 env spaths d = ⟨spaths, none, []⟩) := by
  have hrec : (onAdd env exclude paths fsp).paths
      = rinsert paths p (match fsp.recursive with
          | some b => b
          | none => ((rlookup paths p).getD false)) := by
    simp [onAdd, h1, h2, h3, h4, h5]
  refine ⟨?_, ?_, ?_⟩
  · rw [hrec]
    exact countKey_rinsert _ _ _
  · have hl : (rlookup (onAdd env exclude paths fsp).paths p).isSome
        = true := by
      rw [hrec, rlookup_rinsert]
      rfl
    generalize (onAdd env exclude paths fsp).paths = P at hl ⊢
    simp [onAdd, h6, h7, h3, hl]
  · intro spaths d hd habs hmem
    simp [onAddV1, hd, habs, h3, hmem]

/-- C1 witness: concrete double Add of `/root` in the example
environment, and the older engine's no-op on an already present path. -/
theorem add_idempotent_witness :
    countKey (onAdd envEx [] [] ⟨"/root", some true⟩).paths "/root" = 1 ∧
    onAdd envEx [] (onAdd envEx [] [] ⟨"/root", some true⟩).paths
        ⟨"/root", none⟩ =
      ⟨(onAdd envEx [] [] ⟨"/root", some true⟩).paths, none, none, []⟩ ∧
    onAddV1 envEx ["/root"] "/root" = ⟨["/root"], none, []⟩ :=
  have h := add_idempotent envEx [] [] ⟨"/root", some true⟩
    ⟨"/root", none⟩ "/root" true (by decide) rfl (by decide) rfl rfl
    (by decide) rfl
  ⟨h.1, h.2.1, h.2.2 ["/root"] "/root" (by decide) rfl (by decide)⟩

/-- C2: a path matching a configured exclusion pattern is never passed to
the primitive's register call by the Add handler, and an event carrying
such a path is dropped before the callback: no callback dispatch, no
re-Add, registry untouched. -/
theorem excluded_never_reaches (env : Env) (exclude : List String)
    (paths : Registry) (p : String)
    (hx : (excludePath env exclude p).1 = true) :
    (∀ fsp : Fspath, env.abs fsp.path = some p →
      (onAdd env exclude paths fsp).registerCall = none) ∧
    (∀ ev : Event, ev.name = p →
      (onEvent env exclude paths ev).callbackDispatched = false ∧
      (onEvent env exclude paths ev).readd = none ∧
      (onEvent env exclude paths ev).paths = paths) := by
  constructor
  · intro fsp habs
    by_cases hemp : fsp.path = ""
    · simp [onAdd, hemp]
    · cases hstat : env.stat p with
      | notFound => simp [onAdd, hemp, habs, hstat]
      | otherErr => simp [onAdd, hemp, habs, hstat]
      | ok isd =>
        by_cases hlk : (rlookup paths p).isSome
        · simp [onAdd, hemp, habs, hstat, hlk]
        · simp [onAdd, hemp, habs, hstat, hlk, hx]
  · intro ev hev
    subst hev
    simp [onEvent, hx]

/-- C2 witness: with the single exclusion pattern `/p`, an Add for `/p`
registers nothing and an event for `/p` is dropped entirely. -/
theorem excluded_never_reaches_witness :
    (onAdd envEx ["/p"] [] ⟨"/p", some true⟩).registerCall = none ∧
    (onEvent envEx ["/p"] [] ⟨"/p", 1⟩).callbackDispatched = false ∧
    (onEvent envEx ["/p"] [] ⟨"/p", 1⟩).readd = none ∧
    (onEvent envEx ["/p"] [] ⟨"/p", 1⟩).paths = [] :=
  have h := excluded_never_reaches envEx ["/p"] [] "/p" (by decide)
  ⟨h.1 ⟨"/p", some true⟩ rfl, (h.2 ⟨"/p", 1⟩ rfl).1,
   (h.2 ⟨"/p", 1⟩ rfl).2.1, (h.2 ⟨"/p", 1⟩ rfl).2.2⟩

/-- C3: the tree enumerator yields exactly the root itself when the root
exists and is not a directory; on a directory it yields precisely the
directories reachable from the root — root included for the older free
function (used to seed a whole subtree), root excluded for the newer
method (used for a newly created directory).  Both enumerations are
`List`-valued in the model, hence finite by construction. -/
theorem dirTree_correct (r : String) :
    (dirTree (some .file) r = [r]) ∧
    (∀ (cs : List (String × FsNode)) (q : String),
      (q ∈ dirTree (some (.dir cs)) r ↔ ReachDir r (.dir cs) q)) ∧
    (∀ (n : FsNode) (q : String),
      (q ∈ dirTreeExcl (some n) r ↔ (ReachDir r n q ∧ q ≠ r))) := by
  refine ⟨rfl, ?_, ?_⟩
  · intro cs q
    simpa [dirTree] using walkVisit_mem (.dir cs) r q
  · intro n q
    simp [dirTreeExcl, List.mem_filter, walkVisit_mem n r q]

/-- C4 counterexample: in a concrete environment whose primitive refuses
to register `/refused`, processing an Add command for `/refused` (an
existing, unregistered, non-excluded path) still creates a registry
entry, refuting "a registry entry is created only on successful
registration with the primitive". -/
theorem add_regfail_entry_created :
    envEx.registerOk "/refused" = false ∧
    rlookup (onAdd envEx [] [] ⟨"/refused", some true⟩).paths "/refused"
      = some true := by decide

/-- C4 (amended): for an Add command whose path exists, is not already
registered and is not excluded, if registration with the primitive fails
then the registration was attempted, the failure is logged and the
handler completes normally — but the registry entry is created
regardless of the registration outcome. -/
theorem add_regfail_logged_entry (env : Env) (exclude : List String)
    (paths : Registry) (fsp : Fspath) (p : String) (isd : Bool)
    (h1 : fsp.path ≠ "") (h2 : env.abs fsp.path = some p)
    (h3 : env.stat p = .ok isd) (h4 : rlookup paths p = none)
    (h5 : (excludePath env exclude p).1 = false)
    (h6 : env.registerOk p = false) :
    (onAdd env exclude paths fsp).registerCall = some p ∧
    LogTag.regErr ∈ (onAdd env exclude paths fsp).logs ∧
    rlookup (onAdd env exclude paths fsp).paths p
      = some (fsp.recursive.getD false) := by
  cases hr : fsp.recursive with
  | none => simp [onAdd, h1, h2, h3, h4, h5, h6, hr, rlookup_rinsert]
  | some b => simp [onAdd, h1, h2, h3, h4, h5, h6, hr, rlookup_rinsert]

/-- C4 witness: concrete failed registration of `/refused`. -/
theorem add_regfail_logged_entry_witness :
    (onAdd envEx [] [] ⟨"/refused", some true⟩).registerCall
      = some "/refused" ∧
    LogTag.regErr ∈ (onAdd envEx [] [] ⟨"/refused", some true⟩).logs ∧
    rlookup (onAdd envEx [] [] ⟨"/refused", some true⟩).paths "/refused"
      = some ((Fspath.mk "/refused" (some true)).recursive.getD false) :=
  add_regfail_logged_entry envEx [] [] ⟨"/refused", some true⟩
    "/refused" true (by decide) rfl (by decide) rfl rfl (by decide)

/-- C5: when a path no longer exists, an Add command resolving to it
removes its registry entry and neither registers it with the primitive
nor spawns an enumeration; an event for it (once past the exclusion
filter) likewise removes the entry and re-submits nothing, and the
erased registry no longer resolves the path. -/
theorem removed_on_not_found (env : Env) (exclude : List String)
    (paths : Registry) (p : String)
    (hnf : env.stat p = .notFound) :
    (∀ fsp : Fspath, fsp.path ≠ "" → env.abs fsp.path = some p →
      onAdd env exclude paths fsp = ⟨rerase paths p, none, none, []⟩) ∧
    (∀ ev : Event, ev.name = p → (excludePath env exclude p).1 = false →
      onEvent env exclude paths ev =
        ⟨rerase paths p, true, none, (excludePath env exclude p).2⟩) ∧
    rlookup (rerase paths p) p = none := by
  refine ⟨?_, ?_, rlookup_rerase paths p⟩
  · intro fsp hne habs
    simp [onAdd, hne, habs, hnf]
  · intro ev hev hx
    subst hev
    simp [onEvent, hx, hnf]

/-- C5 witness: `/gone` does not exist in the example environment; both
handlers drop its stale entry and re-add nothing. -/
theorem removed_on_not_found_witness :
    onAdd envEx [] [("/gone", true)] ⟨"/gone", none⟩ =
      ⟨rerase [("/gone", true)] "/gone", none, none, []⟩ ∧
    onEvent envEx [] [("/gone", true)] ⟨"/gone", 2⟩ =
      ⟨rerase [("/gone", true)] "/gone", true, none,
        (excludePath envEx [] "/gone").2⟩ ∧
    rlookup (rerase [("/gone", true)] "/gone") "/gone" = none :=
  have h := removed_on_not_found envEx [] [("/gone", true)] "/gone"
    (by decide)
  ⟨h.1 ⟨"/gone", none⟩ (by decide) rfl, h.2.1 ⟨"/gone", 2⟩ rfl rfl,
   h.2.2⟩

/-- C6: at the start of an agent incarnation, every registry entry of the
prior incarnation's snapshot that still resolves and exists is among the
paths `prepAgent`/`initTree` re-submit as Add commands into the command
channel. -/
theorem snapshot_resubmitted (env : Env) (snapshot : List String)
    (k : String) (n : FsNode)
    (hk : k ∈ snapshot) (habs : env.abs k = some k)
    (ht : env.tree k = some n) :
    k ∈ prepAgent env snapshot := by
  unfold prepAgent initTree
  rw [List.mem_flatten]
  refine ⟨dirTree (env.tree k) k, ?_, ?_⟩
  · apply List.mem_filterMap.mpr
    refine ⟨k, hk, ?_⟩
    rw [habs]
    rfl
  · rw [ht]
    cases n with
    | file => simp [dirTree]
    | dir cs => simp [dirTree, walkVisit]

/-- C6 witness: the snapshot entry `/root` (an existing directory) is
re-submitted by the recovery pass. -/
theorem snapshot_resubmitted_witness :
    "/root" ∈ prepAgent envEx ["/root"] :=
  snapshot_resubmitted envEx ["/root"] "/root" fsExample
    (by decide) rfl rfl

/-- C7: `excludePath` returns `true` iff the path matches at least one
configured pattern under the glob matcher; a malformed pattern (match
error) is logged and treated as a non-match, so it is never fatal (the
function is total) and never causes exclusion — in particular, when every
pattern is malformed, the result is `false` with one log per pattern. -/
theorem excludePath_spec (env : Env) (exclude : List String)
    (p : String) :
    ((excludePath env exclude p).1 = true ↔
      ∃ ptrn ∈ exclude, env.matchGlob ptrn p = Except.ok true) ∧
    ((∀ ptrn ∈ exclude, env.matchGlob ptrn p = Except.error ()) →
      excludePath env exclude p =
        (false, List.replicate exclude.length LogTag.matchErr)) :=
  ⟨excludePath_true_iff env p exclude, excludePath_all_err env p exclude⟩

/-- C7 witness: with a malformed pattern followed by a matching one the
path is excluded; with only the malformed pattern it is not excluded and
the error is logged once. -/
theorem excludePath_spec_witness :
    (excludePath envEx ["[", "/x"] "/x").1 = true ∧
    excludePath envEx ["["] "/y" =
      (false, List.replicate 1 LogTag.matchErr) :=
  ⟨(excludePath_spec envEx ["[", "/x"] "/x").1.mpr
      ⟨"/x", by decide, rfl⟩,
   (excludePath_spec envEx ["["] "/y").2 (by
      intro ptrn hp
      rw [List.mem_singleton] at hp
      subst hp
      rfl)⟩

/-- C8: the constructor panics (modelled as `Except.error`) exactly when
the folded options leave the notify callback absent; with a callback
present, construction succeeds and returns the handle built from the
options, with the logger defaulted and an empty registry. -/
theorem new_requires_callback {N L : Type} (defLogger : L)
    (opts : List (WOptions N L → WOptions N L)) :
    (NewW defLogger opts = Except.error () ↔
      (foldOpts opts).notify = none) ∧
    (∀ nf, (foldOpts opts).notify = some nf →
      NewW defLogger opts = Except.ok
        ⟨nf, (foldOpts opts).exclude,
         ((foldOpts opts).logger).getD defLogger, []⟩) := by
  constructor
  · unfold NewW
    cases h : (foldOpts opts).notify with
    | none => simp [h]
    | some nf => simp [h]
  · intro nf h
    unfold NewW
    simp [h]

/-- C8 witness: construction with no options fails; construction with a
notify callback succeeds and yields the handle. -/
theorem new_requires_callback_witness :
    NewW (0 : Nat) ([] : List (WOptions Nat Nat → WOptions Nat Nat))
      = Except.error () ∧
    NewW (0 : Nat) [NotifyOpt 7] = Except.ok ⟨7, [], 0, []⟩ :=
  ⟨(new_requires_callback 0 []).1.mpr rfl,
   (new_requires_callback 0 [NotifyOpt 7]).2 7 rfl⟩

/-- C10: the older engine's Add handler silently ignores any path one of
whose separator-delimited segments equals `.git` case-insensitively: no
registration with the primitive is attempted and the registry is left
unchanged (so such a path is never recorded), although no configured
exclusion mechanism exists in that engine at all. -/
theorem git_segment_ignored (env : Env) (paths : List String)
    (d p : String) (habs : env.abs d = some p)
    (hgit : hasGitSeg p = true) (hnm : p ∉ paths) :
    (onAddV1 env paths d).registerCall = none ∧
    (onAddV1 env paths d).paths = paths := by
  by_cases hd : d = ""
  · simp [onAddV1, hd]
  · cases hstat : env.stat p with
    | notFound =>
      simp [onAddV1, hd, habs, hstat, filter_ne_of_not_mem paths p hnm]
    | otherErr => simp [onAddV1, hd, habs, hstat]
    | ok isd => simp [onAddV1, hd, habs, hstat, hnm, hgit]

/-- C10 witness: an Add for `/x/.git/y` (existing, unregistered) is
ignored by the older handler. -/
theorem git_segment_ignored_witness :
    (onAddV1 envEx [] "/x/.git/y").registerCall = none ∧
    (onAddV1 envEx [] "/x/.git/y").paths = [] :=
  git_segment_ignored envEx [] "/x/.git/y" "/x/.git/y" rfl
    (by decide) (by decide)

end Dirwatch
